import Mathlib

/-!
Verification of the core of the Tabula-x data-transformation service:
the sandboxed row transformer (`applyTransformationFunction` and the
`ultraSafeTransform` wrapper it compiles), the record-linkage engine
(`exactMatchJoin`, `fuzzyMatchJoin`) and the metrics calculator
(`calculateMetrics`) from the transformation and join controllers.

JavaScript values appearing in rows are modelled by `JSValue`
(numbers as rationals, no NaN: none of the verified paths produces one).
A row is an association list mapping column names to values, mirroring a
plain JS object with its insertion-ordered keys.
-/

inductive JSValue where
  | vNull
  | vBool (b : Bool)
  | vNum (q : ℚ)
  | vStr (s : String)
  | vArr (elems : List JSValue)
  | vObj (fields : List (String × JSValue))

abbrev Row := List (String × JSValue)

/-- JS property access `row[k]`: the value at the first binding of `k`,
`none` when the key is absent (JS `undefined`). -/
def Row.get (r : Row) (k : String) : Option JSValue :=
  (r.find? (fun kv => kv.1 == k)).map Prod.snd

/-- The column names of a row, in order (JS `Object.keys`). -/
def rowKeys (r : Row) : List String :=
  r.map Prod.fst

/-- JS truthiness: `null`, `false`, `0`, `''` are falsy; every object and
array is truthy. -/
def jsTruthy : JSValue → Bool
  | .vNull => false
  | .vBool b => b
  | .vNum q => if q = 0 then false else true
  | .vStr s => if s = "" then false else true
  | .vArr _ => true
  | .vObj _ => true

/-- JS `typeof v === 'object'` (true for objects, arrays and `null`). -/
def isObjectType : JSValue → Bool
  | .vNull => true
  | .vArr _ => true
  | .vObj _ => true
  | _ => false

/-- JS `String(v)` for the scalar element of an array being joined:
`null`/`undefined` render as the empty string inside `Array.join`. -/
def jsArrayElemString : JSValue → String
  | .vNull => ""
  | .vBool b => if b then "true" else "false"
  | .vNum q => if q.den = 1 then toString q.num else toString q
  | .vStr s => s
  | .vArr _ => ""
  | .vObj _ => "[object Object]"

/-- JS `String(v)`.  Numbers in the verified paths are integer-valued, so
the integer rendering is the exercised case; one nesting level of arrays
is rendered (deeper nesting is never produced by the code under proof). -/
def jsToString : JSValue → String
  | .vNull => "null"
  | .vBool b => if b then "true" else "false"
  | .vNum q => if q.den = 1 then toString q.num else toString q
  | .vStr s => s
  | .vArr elems => String.intercalate "," (elems.map jsArrayElemString)
  | .vObj _ => "[object Object]"

/-- JS `v || ''` applied to a possibly-absent value: an absent key
(`undefined`) and every falsy value collapse to the empty string. -/
def jsOrEmptyStr (v : Option JSValue) : JSValue :=
  match v with
  | none => .vStr ""
  | some x => if jsTruthy x then x else .vStr ""

/-- JS `String.prototype.toLowerCase`, mapping `Char.toLower` over the
characters (they agree on the ASCII data exercised here). -/
def jsToLowerCase (s : String) : String :=
  String.mk (s.data.map Char.toLower)

/-- JS `String.prototype.trim`: strip whitespace from both ends. -/
def jsTrim (s : String) : String :=
  String.mk (((s.data.dropWhile Char.isWhitespace).reverse.dropWhile
    Char.isWhitespace).reverse)

/-- JS `String.prototype.startsWith`. -/
def jsStartsWith (s pre : String) : Bool :=
  List.isPrefixOf pre.data s.data

/-- JS `String.prototype.includes` on character lists. -/
def listIncludes : List Char → List Char → Bool
  | [], pat => pat.isEmpty
  | c :: rest, pat => List.isPrefixOf pat (c :: rest) || listIncludes rest pat

/-- JS `s.includes(pat)`. -/
def strIncludes (s pat : String) : Bool :=
  listIncludes s.data pat.data

/-!
## Sandboxed row transformer

`applyTransformationFunction(data, transformationFunction)` from the
transformation controller.  The untrusted user procedure is dynamic code
compiled with `new Function`; its semantics are modelled by `Procedure`:
`run` gives, for each input row, either the value returned by
`transformRow` or the fact that the call threw, and `initThrows` models a
throw while the procedure text itself is being evaluated at
initialization time.  `text` is the raw request value carrying the
procedure source (any JS value may arrive there).
-/

inductive ProcOutcome where
  | throws
  | returns (v : JSValue)

structure Procedure where
  text : JSValue
  initThrows : Bool
  run : Row → ProcOutcome

/-- The internal errors thrown inside `applyTransformationFunction`'s
`try` block before any row is processed: `typeError` models the
`TypeError` from calling `.substring` on a non-string value; the other
two are the explicit `throw new Error(...)` text validations. -/
inductive TransformError where
  | typeError
  | invalidFunction
  | malformedProcedure
deriving DecidableEq

/-- The fail-fast validation of the procedure text: a non-string value
throws `TypeError` at the logging call; an empty / whitespace-only string
throws `Invalid transformation function`; a string without a textual
`transformRow` declaration throws
`Malformed transformation function: missing transformRow implementation`. -/
def procTextError (text : JSValue) : Option TransformError :=
  match text with
  | .vStr s =>
    if jsTruthy (.vStr s) = false || jsTrim s == "" then some .invalidFunction
    else if (strIncludes s "function transformRow" || strIncludes s "const transformRow"
              || strIncludes s "let transformRow") = false
      then some .malformedProcedure
    else none
  | _ => some .typeError

/-- `createFallbackTransform(originalRow)`: a function returning a record
with `originalRow`'s keys and every value blanked.  (The non-object
`originalRow` branch of the source is unreachable at its call sites:
both pass a row object.) -/
def createFallbackTransform (originalRow : Row) : Row → Row :=
  fun _row => originalRow.map (fun kv => (kv.1, JSValue.vStr ""))

/-- Blank a row: same keys, every value the empty string. -/
def blankRow (r : Row) : Row :=
  r.map (fun kv => (kv.1, JSValue.vStr ""))

/-- `Object.fromEntries(result.map((val, idx) => ['item' + idx, val]))`:
an array result converted to a record with synthetic indexed keys. -/
def itemRow (elems : List JSValue) : Row :=
  elems.enum.map (fun q => ("item" ++ toString q.1, q.2))

/-- The result-shape validation inside `ultraSafeTransform`: a falsy
result becomes the empty record; a truthy non-object is wrapped as
`{ value: result }`; an array is converted to a record with synthetic
keys `item0, item1, …`; an object passes through. -/
def validateTransformResult (result : JSValue) : Row :=
  if jsTruthy result = false then []
  else
    match result with
    | .vObj fields => fields
    | .vArr elems => itemRow elems
    | v => [("value", v)]

/-- The callable produced by `new Function(functionWrapper)()`: if
evaluating the procedure text throws, the raw fallback keyed on
`data[0] || {}` is returned; otherwise `ultraSafeTransform`, which calls
`transformRow` inside its own catch (a throw falls back to the current
row's keys blanked) and then validates the result shape. -/
def mkUltraSafeFn (p : Procedure) (data : List Row) : Row → Row :=
  if p.initThrows then createFallbackTransform (data.headD [])
  else fun row =>
    let result : JSValue :=
      match p.run row with
      | .returns v => v
      | .throws => JSValue.vObj (createFallbackTransform row row)
    validateTransformResult result

/-- The per-row body of the batch `map`: an empty/invalid result counts
as an error and is replaced by a blanked template taken from the first
of the first five rows whose (re-computed) transform is non-empty
(`templateObj` is always truthy, so the `: blanks(row)` arm of the
source's conditional is dead); a non-empty result counts as a success.
The boolean records which counter the row incremented. -/
def transformRow1 (fn : Row → Row) (data : List Row) (row : Row) : Row × Bool :=
  let result := fn row
  if result.isEmpty then
    (blankRow ((((data.take 5).map fn).find? (fun r => !r.isEmpty)).getD []), false)
  else (result, true)

/-- JS `item && typeof item === 'object'`: every emitted item is a row
object, hence truthy and of object type. -/
def isObjectRow (_r : Row) : Bool := true

structure TransformBatchResult where
  results : List Row
  successCount : Nat
  errorCount : Nat

/-- The `try` block of `applyTransformationFunction`: validate the
procedure text (throwing one of the `TransformError`s), compile once,
map every row through `transformRow1`, filter out non-objects (a no-op)
and count successes and errors. -/
def transformBatchCore (data : List Row) (p : Procedure) :
    Except TransformError TransformBatchResult :=
  match procTextError p.text with
  | some e => .error e
  | none =>
    let fn := mkUltraSafeFn p data
    let pairs := data.map (transformRow1 fn data)
    .ok { results := (pairs.map Prod.fst).filter isObjectRow,
          successCount := (pairs.filter (fun q => q.2)).length,
          errorCount := (pairs.filter (fun q => !q.2)).length }

/-- `applyTransformationFunction(data, transformationFunction)`: empty or
invalid batches return `[]`; every error thrown inside the `try` block is
caught and the function falls back to returning a spread-copy of the
original rows — no error ever reaches the caller, and the caller receives
only the row list (the counters are logged, not returned). -/
def applyTransformationFunction (data : List Row) (p : Procedure) : List Row :=
  if data.isEmpty then []
  else
    match transformBatchCore data p with
    | .ok r => r.results
    | .error _ => data.map (fun row => row)

/-!
## Record linkage engine

`exactMatchJoin` and `fuzzyMatchJoin` from the join controller.
-/

structure JoinStats where
  totalTransformed : Nat
  totalTarget : Nat
  matched : Nat
  unmatched : Nat
  matchRate : ℚ

structure JoinResult where
  joinedData : List Row
  stats : JoinStats

/-- One element of `matchColumns.map(col => row[col]).join('|')`:
`Array.join` renders `null` and `undefined` as the empty string. -/
def joinKeyElem : Option JSValue → String
  | none => ""
  | some .vNull => ""
  | some v => jsToString v

/-- The concatenated match-column key of a row. -/
def joinKey (cols : List String) (r : Row) : String :=
  String.intercalate "|" (cols.map (fun c => joinKeyElem (Row.get r c)))

/-- Lookup in the target `Map`: the map is built by `set`, so a later
target row with the same key overwrites an earlier one — the lookup
returns the last matching row. -/
def targetLookup (cols : List String) (targetData : List Row) (key : String) :
    Option Row :=
  (targetData.filter (fun g => joinKey cols g == key)).getLast?

/-- `{...transformedRow, ...entries(targetRow) not already keyed in it}`. -/
def mergeRows (t g : Row) : Row :=
  t ++ g.filter (fun kv => !((rowKeys t).contains kv.1))

/-- `exactMatchJoin(transformedData, targetData, matchColumns)`: hash
join on the concatenated key; a hit appends the merged row tagged
`__matchStatus: 'matched'`, a miss appends the transformed row tagged
`__matchStatus: 'unmatched'`. -/
def exactMatchJoin (transformedData targetData : List Row)
    (matchColumns : List String) : JoinResult :=
  let step := fun (acc : List Row × Nat × Nat) (t : Row) =>
    match targetLookup matchColumns targetData (joinKey matchColumns t) with
    | some g =>
      (acc.1 ++ [mergeRows t g ++ [("__matchStatus", JSValue.vStr "matched")]],
       acc.2.1 + 1, acc.2.2)
    | none =>
      (acc.1 ++ [t ++ [("__matchStatus", JSValue.vStr "unmatched")]],
       acc.2.1, acc.2.2 + 1)
  let r := transformedData.foldl step ([], 0, 0)
  { joinedData := r.1,
    stats :=
      { totalTransformed := transformedData.length,
        totalTarget := targetData.length,
        matched := r.2.1,
        unmatched := r.2.2,
        matchRate :=
          if transformedData.length > 0 then
            (r.2.1 : ℚ) / (transformedData.length : ℚ)
          else 0 } }

/-- The caller-supplied fuzzy options built in `joinDatasets` from the
request's `fuzzyAlgorithm` and `threshold` fields. -/
structure FuzzyOptions where
  algorithm : JSValue
  threshold : JSValue

/-- Per-column fuzzy similarity: compare the lowercased stringified
values (missing and falsy values collapse to the empty string); exact
equality scores 1, a prefix relation scores `min(len)/max(len)`,
anything else 0. -/
def columnSimilarity (t g : Row) (col : String) : ℚ :=
  let tv := jsToLowerCase (jsToString (jsOrEmptyStr (Row.get t col)))
  let gv := jsToLowerCase (jsToString (jsOrEmptyStr (Row.get g col)))
  if tv = gv then 1
  else if jsStartsWith tv gv || jsStartsWith gv tv then
    ((min tv.length gv.length : ℕ) : ℚ) / ((max tv.length gv.length : ℕ) : ℚ)
  else 0

/-- The averaged row-pair score: summed per-column similarity divided by
`maxPossibleScore = matchColumns.length`. -/
def rowPairScore (cols : List String) (t g : Row) : ℚ :=
  (cols.foldl (fun acc c => acc + columnSimilarity t g c) 0) / (cols.length : ℚ)

/-- One step of the inner best-match scan of `fuzzyMatchJoin`: a
candidate replaces the current best only when its normalized score is
strictly greater and at least the hard-coded `0.7` threshold. -/
def fuzzyStep (cols : List String) (tRow : Row) (best : Option Row × ℚ)
    (g : Row) : Option Row × ℚ :=
  let s := rowPairScore cols tRow g
  if s > best.2 ∧ s ≥ 7/10 then (some g, s) else best

/-- The inner best-match scan of `fuzzyMatchJoin` over the whole target
sequence, starting from no match and score `0`. -/
def fuzzyBestMatch (cols : List String) (tRow : Row) (targetData : List Row) :
    Option Row × ℚ :=
  targetData.foldl (fuzzyStep cols tRow) (none, 0)

/-- `fuzzyMatchJoin(transformedData, targetData, matchColumns)`: the
source function declares only three parameters, so the `fuzzyOptions`
argument passed at the call site is dropped — it is bound here and never
consulted, exactly as in the source. -/
def fuzzyMatchJoin (transformedData targetData : List Row)
    (matchColumns : List String) (_fuzzyOptions : FuzzyOptions) : JoinResult :=
  let step := fun (acc : List Row × Nat × Nat) (t : Row) =>
    match fuzzyBestMatch matchColumns t targetData with
    | (some g, s) =>
      (acc.1 ++ [mergeRows t g ++
         [("__matchStatus", JSValue.vStr "matched"), ("__matchScore", JSValue.vNum s)]],
       acc.2.1 + 1, acc.2.2)
    | (none, _) =>
      (acc.1 ++ [t ++
         [("__matchStatus", JSValue.vStr "unmatched"), ("__matchScore", JSValue.vNum 0)]],
       acc.2.1, acc.2.2 + 1)
  let r := transformedData.foldl step ([], 0, 0)
  { joinedData := r.1,
    stats :=
      { totalTransformed := transformedData.length,
        totalTarget := targetData.length,
        matched := r.2.1,
        unmatched := r.2.2,
        matchRate :=
          if transformedData.length > 0 then
            (r.2.1 : ℚ) / (transformedData.length : ℚ)
          else 0 } }

/-!
## Metrics calculator

`calculateMetrics(transformedData, targetData)` from the transformation
controller: positional comparison over the first `min` length pairs.
-/

structure Metrics where
  f1Score : ℚ
  precision : ℚ
  «recall» : ℚ
  editDistance : ℚ

/-- `new Set([...keys(tRow), ...keys(gRow)])`: union of the two key
lists keeping first occurrences. -/
def addKey (acc : List String) (k : String) : List String :=
  if acc.contains k then acc else acc ++ [k]

def allKeys (t g : Row) : List String :=
  (rowKeys t ++ rowKeys g).foldl addKey []

/-- `String(row[key] || '')`. -/
def metricStr (r : Row) (k : String) : String :=
  jsToString (jsOrEmptyStr (Row.get r k))

/-- One key's contribution inside the metrics loop: glue `1` onto the
match count when the stringified values agree, and the absolute length
difference onto the distance. -/
def metricsFieldStep (t g : Row) (acc : Nat × Nat) (k : String) : Nat × Nat :=
  let tv := metricStr t k
  let gv := metricStr g k
  (acc.1 + (if tv = gv then 1 else 0),
   acc.2 + ((tv.length : Int) - (gv.length : Int)).natAbs)

/-- Per index pair: (field matches, fields counted, summed length
distance) for the key union of the two rows. -/
def metricsRowPair (t g : Row) : Nat × Nat × Nat :=
  let keys := allKeys t g
  let inner := keys.foldl (metricsFieldStep t g) ((0, 0) : Nat × Nat)
  (inner.1, keys.length, inner.2)

/-- Accumulate one index pair's contribution into
`(matches, totalFields, totalDistance)`. -/
def metricsAccStep (acc : Nat × Nat × Nat) (p : Row × Row) : Nat × Nat × Nat :=
  let rowAgg := metricsRowPair p.1 p.2
  (acc.1 + rowAgg.1, acc.2.1 + rowAgg.2.1, acc.2.2 + rowAgg.2.2)

/-- `calculateMetrics`: zero metrics when either sequence is empty;
otherwise precision, recall and f1Score all equal
`matches / totalFields` and editDistance is the summed per-field length
delta.  (When `totalFields = 0` the source divides 0 by 0, producing JS
`NaN`; rational division renders it as 0 — the theorems below never rely
on that corner.) -/
def calculateMetrics (transformedData targetData : List Row) : Metrics :=
  if transformedData.isEmpty || targetData.isEmpty then
    { f1Score := 0, precision := 0, «recall» := 0, editDistance := 0 }
  else
    let agg := (List.zip transformedData targetData).foldl
      metricsAccStep ((0, 0, 0) : Nat × Nat × Nat)
    let accuracy : ℚ := (agg.1 : ℚ) / (agg.2.1 : ℚ)
    { f1Score := accuracy, precision := accuracy, «recall» := accuracy,
      editDistance := (agg.2.2 : ℚ) }

/-!
## Concrete fixtures used by the witnesses and counterexamples
-/

def exRowA1 : Row := [("a", JSValue.vStr "1")]
def exRowA2 : Row := [("a", JSValue.vStr "2")]
def exRowB2 : Row := [("b", JSValue.vStr "2")]

/-- A procedure whose `transformRow` throws on every row. -/
def procAlwaysThrows : Procedure :=
  { text := JSValue.vStr "function transformRow(row) ... throws on every row",
    initThrows := false,
    run := fun _ => ProcOutcome.throws }

/-- A procedure whose `transformRow` returns the scalar `0` (falsy). -/
def procReturnsZero : Procedure :=
  { text := JSValue.vStr "function transformRow(row) ... returns 0",
    initThrows := false,
    run := fun _ => ProcOutcome.returns (JSValue.vNum 0) }

/-- A procedure text with no `transformRow` declaration. -/
def procNoEntryPoint : Procedure :=
  { text := JSValue.vStr "hello world",
    initThrows := false,
    run := fun _ => ProcOutcome.returns JSValue.vNull }

/-- Succeeds with a blank record on rows whose `a` column is `"1"`,
returns `null` (an invalid result) on every other row. -/
def procBlankOnA1 : Procedure :=
  { text := JSValue.vStr "function transformRow(row) ... blank or null",
    initThrows := false,
    run := fun r =>
      match Row.get r "a" with
      | some (JSValue.vStr "1") =>
        ProcOutcome.returns (JSValue.vObj [("a", JSValue.vStr "")])
      | _ => ProcOutcome.returns JSValue.vNull }

/-- Succeeds with a blank record on every row. -/
def procAlwaysBlank : Procedure :=
  { text := JSValue.vStr "function transformRow(row) ... always blank",
    initThrows := false,
    run := fun _ => ProcOutcome.returns (JSValue.vObj [("a", JSValue.vStr "")]) }

def exSrcRow : Row := [("id", JSValue.vStr "A"), ("v", JSValue.vNum 1)]
def exTgtHit : Row := [("id", JSValue.vStr "A"), ("w", JSValue.vNum 2)]
def exTgtMiss : Row := [("id", JSValue.vStr "B"), ("w", JSValue.vNum 2)]

/-- Fuzzy fixtures: `"abcdefg"` is a prefix of `"abcdefghij"`, so the
pair scores exactly `7/10`; `"abcdefghi"`/`"abcdefghijklm"` scores
`9/13`, just below the threshold. -/
def fzRowAt : Row := [("id", JSValue.vStr "abcdefghij")]
def fzTgtAt : Row := [("id", JSValue.vStr "abcdefg"), ("w", JSValue.vStr "x")]
def fzRowBelow : Row := [("id", JSValue.vStr "abcdefghi")]
def fzTgtBelow : Row := [("id", JSValue.vStr "abcdefghijklm")]

/-- Caller options asking for a strict `0.9` threshold. -/
def optsStrict : FuzzyOptions :=
  { algorithm := JSValue.vStr "levenshtein", threshold := JSValue.vNum (9/10) }

/-- Caller options asking for a relaxed `0.5` threshold. -/
def optsRelaxed : FuzzyOptions :=
  { algorithm := JSValue.vStr "soundex", threshold := JSValue.vNum (1/2) }

/-- A procedure whose `transformRow` returns the truthy scalar `5`. -/
def procReturnsFive : Procedure :=
  { text := JSValue.vStr "function transformRow(row) ... returns 5",
    initThrows := false,
    run := fun _ => ProcOutcome.returns (JSValue.vNum 5) }

/-!
## Helper lemmas
-/

theorem filter_isObjectRow (l : List Row) : l.filter isObjectRow = l := by
  induction l with
  | nil => rfl
  | cons a t ih => simp [List.filter, isObjectRow, ih]

theorem length_filter_add_length_filter_not (l : List (Row × Bool)) :
    (l.filter (fun q => q.2)).length + (l.filter (fun q => !q.2)).length = l.length := by
  induction l with
  | nil => rfl
  | cons a t ih =>
    cases hb : a.2 <;> simp [List.filter, hb, ← ih] <;> omega

theorem blankRow_isEmpty_false (r : Row) (h : r ≠ []) :
    (blankRow r).isEmpty = false := by
  cases r with
  | nil => exact absurd rfl h
  | cons a t => rfl

/-- The compiled callable blanks the current row when `transformRow`
throws on it. -/
theorem mkUltraSafeFn_throws (p : Procedure) (data : List Row) (row : Row)
    (hinit : p.initThrows = false) (hrun : p.run row = ProcOutcome.throws) :
    mkUltraSafeFn p data row = blankRow row := by
  simp only [mkUltraSafeFn, hinit, if_false, Bool.false_eq_true, hrun]
  rfl

theorem transformRow1_of_always_throws (p : Procedure) (data : List Row) (row : Row)
    (hinit : p.initThrows = false) (hrun : p.run row = ProcOutcome.throws)
    (hne : row ≠ []) :
    transformRow1 (mkUltraSafeFn p data) data row = (blankRow row, true) := by
  simp only [transformRow1, mkUltraSafeFn_throws p data row hinit hrun,
    blankRow_isEmpty_false row hne, if_false, Bool.false_eq_true]

theorem list_map_congr_mem {α β : Type} (l : List α) (f g : α → β)
    (h : ∀ a ∈ l, f a = g a) : l.map f = l.map g := by
  induction l with
  | nil => rfl
  | cons a t ih =>
    simp only [List.map]
    rw [h a (by simp), ih (fun b hb => h b (by simp [hb]))]

/-- C1: for every non-empty batch of rows and every procedure, the row
transformer emits exactly one output row per input row — the output
length equals the input length on both the normal path and the caught
fail-soft path. -/
theorem C1_length_invariant (data : List Row) (p : Procedure) (h : data ≠ []) :
    (applyTransformationFunction data p).length = data.length := by
  have hne : data.isEmpty = false := by
    cases data with
    | nil => exact absurd rfl h
    | cons a t => rfl
  unfold applyTransformationFunction
  rw [hne]
  cases hpt : procTextError p.text with
  | some e => simp [transformBatchCore, hpt]
  | none => simp [transformBatchCore, hpt, filter_isObjectRow]

theorem C1_length_invariant_witness :
    [exRowA1, exRowB2] ≠ ([] : List Row) ∧
    (applyTransformationFunction [exRowA1, exRowB2] procAlwaysThrows).length = 2 :=
  ⟨by simp, C1_length_invariant [exRowA1, exRowB2] procAlwaysThrows (by simp)⟩

/-- C2 counterexample: a procedure text with no `transformRow` entry
point does raise the internal `malformedProcedure` error, but the call
still returns normally to the caller with the original rows — it does
not fail as the claim states. -/
theorem C2_counterexample :
    transformBatchCore [exRowA1] procNoEntryPoint =
      Except.error TransformError.malformedProcedure ∧
    applyTransformationFunction [exRowA1] procNoEntryPoint = [exRowA1] :=
  ⟨rfl, rfl⟩

/-- C2 (amended): when the procedure text is empty, not a string, or
lacks a `transformRow` declaration, an internal error is raised before
any row is processed, but it is caught inside the transformer, which
fails soft: the caller receives the original rows unchanged and no error
propagates. -/
theorem C2_malformed_fails_soft (data : List Row) (p : Procedure)
    (e : TransformError) (h : procTextError p.text = some e) :
    transformBatchCore data p = Except.error e ∧
    applyTransformationFunction data p = data := by
  have hcore : transformBatchCore data p = Except.error e := by
    unfold transformBatchCore
    rw [h]
  refine ⟨hcore, ?_⟩
  unfold applyTransformationFunction
  cases hne : data.isEmpty with
  | true =>
    rw [List.isEmpty_iff.mp hne]
    rfl
  | false =>
    rw [hcore]
    simp

theorem C2_malformed_fails_soft_witness :
    procTextError procNoEntryPoint.text = some TransformError.malformedProcedure ∧
    applyTransformationFunction [exRowA1] procNoEntryPoint = [exRowA1] :=
  ⟨rfl,
   (C2_malformed_fails_soft [exRowA1] procNoEntryPoint
     TransformError.malformedProcedure rfl).2⟩

/-- C3 counterexample: with a procedure that throws on every row, the
second output row's key set is that of the second input row (`b`), not
that of the first input row (`a`) — the fallback record is keyed on the
current row, not on the first input row or a previously successful row. -/
theorem C3_counterexample :
    applyTransformationFunction [exRowA1, exRowB2] procAlwaysThrows =
      [[("a", JSValue.vStr "")], [("b", JSValue.vStr "")]] ∧
    rowKeys [("b", JSValue.vStr "")] ≠ rowKeys exRowA1 :=
  ⟨rfl, by decide⟩

/-- C3 (amended): if the compiled procedure throws on every row (with a
valid text and no initialization throw) and every input row is
non-empty, then every output row is a record with the same keys as its
own input row and every value blank.  The non-empty condition is
essential: an empty input row's throw fallback is the empty record,
which the map-level validation treats as invalid, so that row is
emitted with the blanked keys of the template taken from the first five
rows instead of its own (empty) key set. -/
theorem C3_fallback_shape (data : List Row) (p : Procedure)
    (hinit : p.initThrows = false)
    (htext : procTextError p.text = none)
    (hrun : ∀ row, p.run row = ProcOutcome.throws)
    (hrows : ∀ row ∈ data, row ≠ []) :
    applyTransformationFunction data p = data.map blankRow := by
  unfold applyTransformationFunction
  cases hne : data.isEmpty with
  | true =>
    rw [List.isEmpty_iff.mp hne]
    rfl
  | false =>
    have hcore : transformBatchCore data p =
        Except.ok { results := data.map blankRow,
                    successCount :=
                      ((data.map (transformRow1 (mkUltraSafeFn p data) data)).filter
                        (fun q => q.2)).length,
                    errorCount :=
                      ((data.map (transformRow1 (mkUltraSafeFn p data) data)).filter
                        (fun q => !q.2)).length } := by
      unfold transformBatchCore
      rw [htext]
      have hmap : data.map (transformRow1 (mkUltraSafeFn p data) data) =
          data.map (fun row => (blankRow row, true)) :=
        list_map_congr_mem data _ _
          (fun row hrow =>
            transformRow1_of_always_throws p data row hinit (hrun row) (hrows row hrow))
      simp only [hmap, List.map_map]
      rw [filter_isObjectRow]
      rfl
    rw [hcore]
    rfl

theorem C3_fallback_shape_witness :
    applyTransformationFunction [exRowA1, exRowB2] procAlwaysThrows =
      [exRowA1, exRowB2].map blankRow :=
  C3_fallback_shape [exRowA1, exRowB2] procAlwaysThrows rfl rfl
    (fun _ => rfl) (by intro row hrow; fin_cases hrow <;> simp [exRowA1, exRowB2])

/-- C4 counterexample: two procedures whose batches produce different
`(successCount, errorCount)` pairs (`(1,1)` versus `(2,0)`) yield the
very same value returned to the caller, so the counters are not part of
the value the caller receives. -/
theorem C4_counterexample :
    applyTransformationFunction [exRowA1, exRowA2] procBlankOnA1 =
      applyTransformationFunction [exRowA1, exRowA2] procAlwaysBlank ∧
    transformBatchCore [exRowA1, exRowA2] procBlankOnA1 =
      Except.ok { results := [[("a", JSValue.vStr "")], [("a", JSValue.vStr "")]],
                  successCount := 1, errorCount := 1 } ∧
    transformBatchCore [exRowA1, exRowA2] procAlwaysBlank =
      Except.ok { results := [[("a", JSValue.vStr "")], [("a", JSValue.vStr "")]],
                  successCount := 2, errorCount := 0 } ∧
    ((1, 1) : Nat × Nat) ≠ (2, 0) :=
  ⟨rfl, rfl, rfl, by decide⟩

/-- C4 (amended): the engine does count `successCount` and `errorCount`
across the batch — every row increments exactly one of them, so they sum
to the batch length — but they are only logged: the value returned to
the caller is the transformed row list alone. -/
theorem C4_counters_internal_only (data : List Row) (p : Procedure)
    (r : TransformBatchResult) (hne : data ≠ [])
    (h : transformBatchCore data p = Except.ok r) :
    r.successCount + r.errorCount = data.length ∧
    applyTransformationFunction data p = r.results := by
  have hne' : data.isEmpty = false := by
    cases data with
    | nil => exact absurd rfl hne
    | cons a t => rfl
  cases hpt : procTextError p.text with
  | some e =>
    unfold transformBatchCore at h
    rw [hpt] at h
    exact absurd h (by simp)
  | none =>
    unfold transformBatchCore at h
    rw [hpt] at h
    constructor
    · have hcounts := congrArg (fun x =>
        match x with
        | Except.ok y => y.successCount + y.errorCount
        | Except.error _ => 0) h
      simp only [] at hcounts
      rw [← hcounts]
      rw [length_filter_add_length_filter_not]
      simp
    · unfold applyTransformationFunction
      rw [hne']
      unfold transformBatchCore
      rw [hpt, h]
      rfl

theorem C4_counters_internal_only_witness :
    (Nat.succ 1) + 0 = 2 ∧
    applyTransformationFunction [exRowA1, exRowA2] procAlwaysBlank =
      [[("a", JSValue.vStr "")], [("a", JSValue.vStr "")]] := by
  have h := C4_counters_internal_only [exRowA1, exRowA2] procAlwaysBlank
    { results := [[("a", JSValue.vStr "")], [("a", JSValue.vStr "")]],
      successCount := 2, errorCount := 0 } (by simp) rfl
  exact ⟨h.1, h.2⟩

/-- C5: in exact-match mode on `id`, the transformed row
`(id:"A", v:1)` joined against target `(id:"A", w:2)` yields exactly one
row carrying `id`, `v`, the target-only field `w` and the status
`matched`; against target `(id:"B", w:2)` it yields exactly one row with
only the transformed fields and the status `unmatched`. -/
theorem C5_exact_join_hit_and_miss :
    (exactMatchJoin [exSrcRow] [exTgtHit] ["id"]).joinedData =
      [[("id", JSValue.vStr "A"), ("v", JSValue.vNum 1), ("w", JSValue.vNum 2),
        ("__matchStatus", JSValue.vStr "matched")]] ∧
    (exactMatchJoin [exSrcRow] [exTgtMiss] ["id"]).joinedData =
      [[("id", JSValue.vStr "A"), ("v", JSValue.vNum 1),
        ("__matchStatus", JSValue.vStr "unmatched")]] :=
  ⟨rfl, rfl⟩

/-- C7 counterexample: when the procedure returns the scalar `0` (a
falsy value), the emitted row is not `{ value: 0 }` — the falsy check
runs first, the result collapses to the empty record and the per-row
fallback (here an empty template) is emitted instead. -/
theorem C7_counterexample :
    applyTransformationFunction [exRowA1] procReturnsZero = [[]] ∧
    rowKeys ([] : Row) ≠ rowKeys [("value", JSValue.vNum 0)] :=
  ⟨rfl, by decide⟩

/-- C7 (amended): a *truthy* non-record scalar result is emitted as the
single-key record `value ↦ scalar`, and a *non-empty* list result is
emitted as the record with synthetic keys `item0, item1, …` in order;
falsy scalars (`0`, `''`, `false`, like `null`) and the empty list
collapse to the empty record and take the per-row fallback instead. -/
theorem C7_result_wrapping (p : Procedure) (data : List Row) (row : Row)
    (hinit : p.initThrows = false) :
    (∀ v, p.run row = ProcOutcome.returns v → jsTruthy v = true →
      isObjectType v = false →
      transformRow1 (mkUltraSafeFn p data) data row = ([("value", v)], true)) ∧
    (∀ elems, p.run row = ProcOutcome.returns (JSValue.vArr elems) → elems ≠ [] →
      transformRow1 (mkUltraSafeFn p data) data row = (itemRow elems, true)) := by
  constructor
  · intro v hrun htruthy hobj
    have hfn : mkUltraSafeFn p data row = [("value", v)] := by
      simp only [mkUltraSafeFn, hinit, Bool.false_eq_true, if_false, hrun]
      cases v with
      | vNull => simp [jsTruthy] at htruthy
      | vBool b => simp [validateTransformResult, htruthy]
      | vNum q => simp [validateTransformResult, htruthy]
      | vStr s => simp [validateTransformResult, htruthy]
      | vArr es => simp [isObjectType] at hobj
      | vObj fs => simp [isObjectType] at hobj
    simp [transformRow1, hfn]
  · intro elems hrun hne
    have hfn : mkUltraSafeFn p data row = itemRow elems := by
      simp only [mkUltraSafeFn, hinit, Bool.false_eq_true, if_false, hrun]
      simp [validateTransformResult, jsTruthy]
    have hlen : (itemRow elems).isEmpty = false := by
      cases elems with
      | nil => exact absurd rfl hne
      | cons a t => rfl
    simp [transformRow1, hfn, hlen]

theorem C7_result_wrapping_witness :
    transformRow1 (mkUltraSafeFn procReturnsFive [exRowA1]) [exRowA1] exRowA1 =
      ([("value", JSValue.vNum 5)], true) :=
  (C7_result_wrapping procReturnsFive [exRowA1] exRowA1 rfl).1
    (JSValue.vNum 5) rfl (by norm_num [jsTruthy]) rfl

theorem fuzzyStep_cases (cols : List String) (tRow : Row)
    (acc : Option Row × ℚ) (g : Row) :
    (fuzzyStep cols tRow acc g = (some g, rowPairScore cols tRow g) ∧
      7/10 ≤ rowPairScore cols tRow g) ∨
    fuzzyStep cols tRow acc g = acc := by
  by_cases hc : rowPairScore cols tRow g > acc.2 ∧ rowPairScore cols tRow g ≥ 7/10
  · left
    constructor
    · simp only [fuzzyStep]
      rw [if_pos hc]
    · exact hc.2
  · right
    simp only [fuzzyStep]
    rw [if_neg hc]

theorem fuzzyFold_ge (cols : List String) (tRow : Row) :
    ∀ (l : List Row) (acc : Option Row × ℚ),
      (∀ g0, acc.1 = some g0 → 7/10 ≤ acc.2) →
      ∀ (g : Row) (s : ℚ),
        List.foldl (fuzzyStep cols tRow) acc l = (some g, s) → 7/10 ≤ s := by
  intro l
  induction l with
  | nil =>
    intro acc hacc g s h
    simp only [List.foldl_nil] at h
    rw [h] at hacc
    exact hacc g rfl
  | cons a t ih =>
    intro acc hacc g s h
    rw [List.foldl_cons] at h
    refine ih _ ?_ g s h
    rcases fuzzyStep_cases cols tRow acc a with ⟨heq, hge⟩ | heq
    · intro g0 hg0
      rw [heq]
      exact hge
    · intro g0 hg0
      rw [heq] at hg0
      rw [heq]
      exact hacc g0 hg0

theorem columnSimilarity_at_seven_tenths :
    columnSimilarity fzRowAt fzTgtAt "id" = ((7:ℕ):ℚ)/((10:ℕ):ℚ) := rfl

theorem rowPairScore_at_seven_tenths :
    rowPairScore ["id"] fzRowAt fzTgtAt = 7/10 := by
  simp only [rowPairScore, List.foldl_cons, List.foldl_nil,
    columnSimilarity_at_seven_tenths]
  norm_num

theorem fuzzyBestMatch_at_seven_tenths :
    fuzzyBestMatch ["id"] fzRowAt [fzTgtAt] = (some fzTgtAt, 7/10) := by
  simp only [fuzzyBestMatch, List.foldl_cons, List.foldl_nil, fuzzyStep,
    rowPairScore_at_seven_tenths]
  norm_num

theorem columnSimilarity_below_threshold :
    columnSimilarity fzRowBelow fzTgtBelow "id" = ((9:ℕ):ℚ)/((13:ℕ):ℚ) := rfl

theorem rowPairScore_below_threshold :
    rowPairScore ["id"] fzRowBelow fzTgtBelow = 9/13 := by
  simp only [rowPairScore, List.foldl_cons, List.foldl_nil,
    columnSimilarity_below_threshold]
  norm_num

theorem fuzzyBestMatch_below_threshold :
    fuzzyBestMatch ["id"] fzRowBelow [fzTgtBelow] = (none, 0) := by
  simp only [fuzzyBestMatch, List.foldl_cons, List.foldl_nil, fuzzyStep,
    rowPairScore_below_threshold]
  norm_num

/-- C6 counterexample: the caller asks for a `0.9` threshold via
`fuzzyOptions`, yet a pair whose similarity is exactly `0.7` is still
matched — the threshold is not configurable. -/
theorem C6_counterexample :
    (fuzzyMatchJoin [fzRowAt] [fzTgtAt] ["id"] optsStrict).joinedData =
      [[("id", JSValue.vStr "abcdefghij"), ("w", JSValue.vStr "x"),
        ("__matchStatus", JSValue.vStr "matched"),
        ("__matchScore", JSValue.vNum (7/10))]] ∧
    ((7:ℚ)/10) < 9/10 := by
  constructor
  · simp only [fuzzyMatchJoin, List.foldl_cons, List.foldl_nil,
      fuzzyBestMatch_at_seven_tenths]
    rfl
  · norm_num

/-- C6 (amended): the acceptance threshold is the hard-coded `0.7`
regardless of `fuzzyOptions`: a candidate becomes the match only if its
averaged row-pair score is at least `0.7`; a pair scoring exactly `0.7`
is matched and a pair scoring `9/13` (just below) is not, even when the
caller asked for a relaxed `0.5` threshold. -/
theorem C6_threshold_fixed :
    (∀ (cols : List String) (tRow : Row) (targetData : List Row)
       (g : Row) (s : ℚ),
      fuzzyBestMatch cols tRow targetData = (some g, s) → 7/10 ≤ s) ∧
    (fuzzyMatchJoin [fzRowAt] [fzTgtAt] ["id"] optsRelaxed).joinedData =
      [[("id", JSValue.vStr "abcdefghij"), ("w", JSValue.vStr "x"),
        ("__matchStatus", JSValue.vStr "matched"),
        ("__matchScore", JSValue.vNum (7/10))]] ∧
    (fuzzyMatchJoin [fzRowBelow] [fzTgtBelow] ["id"] optsRelaxed).joinedData =
      [[("id", JSValue.vStr "abcdefghi"),
        ("__matchStatus", JSValue.vStr "unmatched"),
        ("__matchScore", JSValue.vNum 0)]] := by
  refine ⟨?_, ?_, ?_⟩
  · intro cols tRow targetData g s h
    exact fuzzyFold_ge cols tRow targetData (none, 0)
      (fun g0 h0 => by simp at h0) g s h
  · simp only [fuzzyMatchJoin, List.foldl_cons, List.foldl_nil,
      fuzzyBestMatch_at_seven_tenths]
    rfl
  · simp only [fuzzyMatchJoin, List.foldl_cons, List.foldl_nil,
      fuzzyBestMatch_below_threshold]
    rfl

theorem C6_threshold_fixed_witness : (7:ℚ)/10 ≤ 7/10 :=
  C6_threshold_fixed.1 ["id"] fzRowAt [fzTgtAt] fzTgtAt (7/10)
    fuzzyBestMatch_at_seven_tenths

/-- C9: the fuzzy join's entire output — joined rows, statuses, scores
and stats — is identical for any two values of the caller-supplied
`fuzzyOptions`: the source function declares no parameter for them, so
the algorithm and threshold are never consulted. -/
theorem C9_fuzzy_options_ignored (transformedData targetData : List Row)
    (matchColumns : List String) (o1 o2 : FuzzyOptions)
    (h : matchColumns ≠ []) :
    fuzzyMatchJoin transformedData targetData matchColumns o1 =
      fuzzyMatchJoin transformedData targetData matchColumns o2 := rfl

theorem C9_fuzzy_options_ignored_witness :
    fuzzyMatchJoin [fzRowAt] [fzTgtAt] ["id"] optsStrict =
      fuzzyMatchJoin [fzRowAt] [fzTgtAt] ["id"] optsRelaxed :=
  C9_fuzzy_options_ignored [fzRowAt] [fzTgtAt] ["id"] optsStrict optsRelaxed
    (by simp)

/-- C10: per-column fuzzy similarity is computed on lowercased
stringified values with missing values collapsing to the empty string:
values whose lowercased renderings coincide (case-only differences)
score `1.0`, and a column absent from both rows scores `1.0`. -/
theorem C10_similarity_case_insensitive :
    (∀ (t g : Row) (col : String),
      jsToLowerCase (jsToString (jsOrEmptyStr (Row.get t col))) =
        jsToLowerCase (jsToString (jsOrEmptyStr (Row.get g col))) →
      columnSimilarity t g col = 1) ∧
    (∀ (t g : Row) (col : String),
      Row.get t col = none → Row.get g col = none →
      columnSimilarity t g col = 1) := by
  constructor
  · intro t g col h
    simp only [columnSimilarity, h]
    simp
  · intro t g col ht hg
    simp only [columnSimilarity, ht, hg]
    simp

theorem C10_similarity_case_insensitive_witness :
    columnSimilarity [("id", JSValue.vStr "ABC")] [("id", JSValue.vStr "abc")]
      "id" = 1 :=
  C10_similarity_case_insensitive.1
    [("id", JSValue.vStr "ABC")] [("id", JSValue.vStr "abc")] "id" rfl

theorem zip_self {α : Type} (l : List α) :
    List.zip l l = l.map (fun a => (a, a)) := by
  induction l with
  | nil => rfl
  | cons a t ih => simp [List.zip_cons_cons, ih]

theorem metricsFieldStep_self (r : Row) (acc : Nat × Nat) (k : String) :
    metricsFieldStep r r acc k = (acc.1 + 1, acc.2) := by
  simp [metricsFieldStep]

theorem foldl_metricsFieldStep_self (r : Row) :
    ∀ (ks : List String) (m d : Nat),
      ks.foldl (metricsFieldStep r r) (m, d) = (m + ks.length, d) := by
  intro ks
  induction ks with
  | nil => intro m d; simp
  | cons k t ih =>
    intro m d
    rw [List.foldl_cons, metricsFieldStep_self, ih]
    rw [Prod.mk.injEq]
    constructor
    · simp only [List.length_cons]; omega
    · rfl

theorem metricsRowPair_self (r : Row) :
    metricsRowPair r r = ((allKeys r r).length, (allKeys r r).length, 0) := by
  simp only [metricsRowPair, foldl_metricsFieldStep_self, Nat.zero_add]

theorem foldl_metricsAccStep_self :
    ∀ (l : List Row) (a b c : Nat),
      (l.map (fun r => (r, r))).foldl metricsAccStep (a, b, c) =
        (a + (l.map (fun r => (allKeys r r).length)).sum,
         b + (l.map (fun r => (allKeys r r).length)).sum, c) := by
  intro l
  induction l with
  | nil => intro a b c; simp
  | cons r t ih =>
    intro a b c
    rw [List.map_cons, List.foldl_cons]
    have hstep : metricsAccStep (a, b, c) (r, r) =
        (a + (allKeys r r).length, b + (allKeys r r).length, c) := by
      simp [metricsAccStep, metricsRowPair_self]
    rw [hstep, ih]
    rw [List.map_cons, List.sum_cons]
    rw [Prod.mk.injEq, Prod.mk.injEq]
    refine ⟨by omega, by omega, rfl⟩

theorem allKeys_length_pos (r : Row) (h : r ≠ []) :
    0 < (allKeys r r).length := by
  have hstep : ∀ (ks : List String) (acc : List String),
      acc.length ≤ (ks.foldl addKey acc).length := by
    intro ks
    induction ks with
    | nil => intro acc; simp
    | cons k t ih =>
      intro acc
      refine le_trans ?_ (ih (addKey acc k))
      unfold addKey
      by_cases hc : acc.contains k
      · rw [if_pos hc]
      · rw [if_neg hc]
        simp
  cases r with
  | nil => exact absurd rfl h
  | cons a t =>
    unfold allKeys
    have h2 := hstep (rowKeys t ++ rowKeys (a :: t)) (addKey [] a.1)
    have h3 : addKey ([] : List String) a.1 = [a.1] := rfl
    rw [h3] at h2
    simp only [rowKeys, List.map_cons, List.foldl_cons]
    calc 0 < ([a.1] : List String).length := by simp
      _ ≤ _ := by
        simpa [rowKeys, h3] using h2

/-- C8 counterexample: the claim quantifies over every sequence of rows,
but for the empty sequence `calculateMetrics` takes its early-return
path and yields all-zero metrics, so `precision = 0 ≠ 1`. -/
theorem C8_counterexample :
    calculateMetrics [] [] =
      { f1Score := 0, precision := 0, «recall» := 0, editDistance := 0 } ∧
    ((0:ℚ) ≠ 1) :=
  ⟨rfl, by norm_num⟩

/-- C8 (amended): for every non-empty sequence of rows containing at
least one non-empty row, comparing the sequence against itself yields
`precision = recall = f1Score = 1` and `editDistance = 0`.  (Without a
non-empty row the source computes `0 / 0`, JS `NaN`, not `1`; the empty
sequence takes the all-zero early return.) -/
theorem C8_metrics_round_trip (rows : List Row) (hne : rows ≠ [])
    (hsome : ∃ r ∈ rows, r ≠ []) :
    calculateMetrics rows rows =
      { f1Score := 1, precision := 1, «recall» := 1, editDistance := 0 } := by
  have hisEmpty : rows.isEmpty = false := by
    cases rows with
    | nil => exact absurd rfl hne
    | cons a t => rfl
  have hS : 0 < (rows.map (fun r => (allKeys r r).length)).sum := by
    obtain ⟨r, hmem, hr⟩ := hsome
    have h1 : (allKeys r r).length ∈ rows.map (fun r => (allKeys r r).length) :=
      List.mem_map_of_mem _ hmem
    have h2 := List.single_le_sum
      (l := rows.map (fun r => (allKeys r r).length)) (fun x _ => Nat.zero_le x)
      _ h1
    have h3 := allKeys_length_pos r hr
    omega
  have hdiv : (((rows.map (fun r => (allKeys r r).length)).sum : ℕ) : ℚ) /
      (((rows.map (fun r => (allKeys r r).length)).sum : ℕ) : ℚ) = 1 :=
    div_self (by
      exact_mod_cast Nat.pos_iff_ne_zero.mp hS)
  unfold calculateMetrics
  rw [hisEmpty]
  simp only [Bool.or_self, Bool.false_eq_true, if_false]
  rw [zip_self, foldl_metricsAccStep_self]
  simp only [Nat.zero_add]
  rw [Metrics.mk.injEq]
  exact ⟨hdiv, hdiv, hdiv, by norm_num⟩

theorem C8_metrics_round_trip_witness :
    calculateMetrics [exRowA1] [exRowA1] =
      { f1Score := 1, precision := 1, «recall» := 1, editDistance := 0 } :=
  C8_metrics_round_trip [exRowA1] (by simp)
    ⟨exRowA1, by simp, by simp [exRowA1]⟩
